import Mathlib

/-!
A verification development for `displaylib.py`: the Python↔JavaScript
bridge (`JSBridge`), the shared-variable store (`DisplayLib`), the
guest-side client stub embedded in `render_page`, and the demo methods
(`DisplayLibDemo`).

Wire values are modelled by the inductive `Json`; Python runtime values
by `PyVal` (which additionally has a constructor for objects that
`json.dumps` cannot encode).  `json.dumps` / `JSON.stringify` are
modelled by `Json.render` (canonical minimal JSON text: the model emits
no optional whitespace and escapes only the two characters `"` and `\`
in strings; numbers are restricted to integers, which covers every value
the claims mention).  `json.loads` / `JSON.parse` are modelled by
`loads`, a fuel-indexed recursive-descent reader of the same textual
format.
-/

/-- A JSON wire value (the common value domain of `json.dumps`,
`json.loads`, `JSON.stringify` and `JSON.parse`). -/
inductive Json where
  | null : Json
  | bool (b : Bool) : Json
  | num (n : Int) : Json
  | str (s : String) : Json
  | arr (xs : List Json) : Json
  | obj (fs : List (String × Json)) : Json

/-- A Python runtime value.  `pyobj ty` stands for an instance of a
class named `ty` that the JSON serializer cannot encode (a set, a Qt
widget, ...). -/
inductive PyVal where
  | none : PyVal
  | bool (b : Bool) : PyVal
  | int (n : Int) : PyVal
  | str (s : String) : PyVal
  | list (xs : List PyVal) : PyVal
  | dict (fs : List (String × PyVal)) : PyVal
  | pyobj (ty : String) : PyVal

/-- The character for one decimal digit. -/
def digitChar : Nat → Char
  | 0 => '0'
  | 1 => '1'
  | 2 => '2'
  | 3 => '3'
  | 4 => '4'
  | 5 => '5'
  | 6 => '6'
  | 7 => '7'
  | 8 => '8'
  | 9 => '9'
  | _ => '?'

/-- Decimal digit characters of a natural number (big-endian),
as produced by Python `str`/`json.dumps` and JavaScript string
conversion. -/
def natChars (n : Nat) : List Char :=
  if n = 0 then ['0']
  else ((Nat.digits 10 n).map digitChar).reverse

/-- Decimal rendering of an integer. -/
def intChars (i : Int) : List Char :=
  if i < 0 then '-' :: natChars i.natAbs else natChars i.natAbs

/-- String-body escaping used by the serializer: `"` and `\` are
backslash-escaped, every other character is copied verbatim. -/
def escChars : List Char → List Char
  | [] => []
  | c :: cs =>
    if c = '"' ∨ c = '\\' then '\\' :: c :: escChars cs
    else c :: escChars cs

/-- Rendering of a JSON string literal, quotes included. -/
def strChars (s : String) : List Char :=
  '"' :: (escChars s.data ++ ['"'])

mutual

/-- `Json.render v` is the JSON text `json.dumps` /
`JSON.stringify` produce for `v` (as a character list). -/
def Json.render : Json → List Char
  | Json.null => ['n', 'u', 'l', 'l']
  | Json.bool true => ['t', 'r', 'u', 'e']
  | Json.bool false => ['f', 'a', 'l', 's', 'e']
  | Json.num n => intChars n
  | Json.str s => strChars s
  | Json.arr xs => '[' :: Json.renderItems xs
  | Json.obj fs => '\x7b' :: Json.renderFields fs

/-- Body of an array rendering: the elements, comma separated, and the
closing bracket. -/
def Json.renderItems : List Json → List Char
  | [] => [']']
  | v :: vs => Json.render v ++ Json.renderArrSep vs

/-- Continuation of an array rendering after one element. -/
def Json.renderArrSep : List Json → List Char
  | [] => [']']
  | v :: vs => ',' :: (Json.render v ++ Json.renderArrSep vs)

/-- Body of an object rendering: the `"key":value` pairs, comma
separated, and the closing brace. -/
def Json.renderFields : List (String × Json) → List Char
  | [] => ['\x7d']
  | (k, v) :: fs => strChars k ++ ':' :: (Json.render v ++ Json.renderObjSep fs)

/-- Continuation of an object rendering after one member. -/
def Json.renderObjSep : List (String × Json) → List Char
  | [] => ['\x7d']
  | (k, v) :: fs =>
      ',' :: (strChars k ++ ':' :: (Json.render v ++ Json.renderObjSep fs))

end

/-- `json.dumps` on a wire value, as a Lean `String`. -/
def dumps (v : Json) : String := String.mk (Json.render v)

/-- Longest digit run at the head of the input, with the rest. -/
def takeDigits : List Char → List Char × List Char
  | [] => ([], [])
  | c :: cs =>
    if c.isDigit then
      let p := takeDigits cs
      (c :: p.1, p.2)
    else ([], c :: cs)

/-- Numeric value of a big-endian list of decimal digit characters. -/
def digitsVal (ds : List Char) : Nat :=
  ds.foldl (fun a c => 10 * a + (c.toNat - 48)) 0

/-- Read an unsigned decimal number from the head of the input. -/
def parseNum (cs : List Char) : Option (Nat × List Char) :=
  match takeDigits cs with
  | ([], _) => Option.none
  | (ds, r) => some (digitsVal ds, r)

/-- Read the body of a JSON string literal (after the opening quote),
returning the unescaped characters and the input after the closing
quote. -/
def parseStrBody : List Char → Option (List Char × List Char)
  | [] => Option.none
  | '\\' :: c :: cs =>
    match parseStrBody cs with
    | some (l, r) => some (c :: l, r)
    | none => none
  | '"' :: cs => some ([], cs)
  | c :: cs =>
    match parseStrBody cs with
    | some (l, r) => some (c :: l, r)
    | none => none

mutual

/-- Fuel-indexed JSON reader: one value from the head of the input.
Models the grammar accepted by `json.loads` / `JSON.parse` on the
texts the serializer produces. -/
def parseVal : Nat → List Char → Option (Json × List Char)
  | 0, _ => Option.none
  | f + 1, cs =>
    match cs with
    | [] => Option.none
    | c :: rest =>
      if c.isDigit then
        match parseNum (c :: rest) with
        | some (n, r) => some (Json.num (n : Int), r)
        | none => none
      else if c = '-' then
        match parseNum rest with
        | some (n, r) => some (Json.num (-(n : Int)), r)
        | none => none
      else if c = '"' then
        match parseStrBody rest with
        | some (l, r) => some (Json.str (String.mk l), r)
        | none => none
      else if c = '[' then
        if rest.head? = some ']' then some (Json.arr [], rest.tail)
        else
          match parseVal f rest with
          | some (v, r) =>
            match parseArrTail f r with
            | some (vs, r2) => some (Json.arr (v :: vs), r2)
            | none => none
          | none => none
      else if c = '\x7b' then
        if rest.head? = some '\x7d' then some (Json.obj [], rest.tail)
        else
          match rest with
          | '"' :: r1 =>
            match parseStrBody r1 with
            | some (k, r2) =>
              match r2 with
              | ':' :: r3 =>
                match parseVal f r3 with
                | some (v, r4) =>
                  match parseObjTail f r4 with
                  | some (fs, r5) => some (Json.obj ((String.mk k, v) :: fs), r5)
                  | none => none
                | none => none
              | _ => none
            | none => none
          | _ => none
      else
        match c :: rest with
        | 'n' :: 'u' :: 'l' :: 'l' :: r => some (Json.null, r)
        | 't' :: 'r' :: 'u' :: 'e' :: r => some (Json.bool true, r)
        | 'f' :: 'a' :: 'l' :: 's' :: 'e' :: r => some (Json.bool false, r)
        | _ => none

/-- After one array element: either the closing bracket, or a comma and
further elements. -/
def parseArrTail : Nat → List Char → Option (List Json × List Char)
  | 0, _ => Option.none
  | f + 1, cs =>
    match cs with
    | ']' :: r => some ([], r)
    | ',' :: r =>
      match parseVal f r with
      | some (v, r2) =>
        match parseArrTail f r2 with
        | some (vs, r3) => some (v :: vs, r3)
        | none => none
      | none => none
    | _ => none

/-- After one object member: either the closing brace, or a comma and
further members. -/
def parseObjTail : Nat → List Char → Option (List (String × Json) × List Char)
  | 0, _ => Option.none
  | f + 1, cs =>
    match cs with
    | '\x7d' :: r => some ([], r)
    | ',' :: '"' :: r1 =>
      match parseStrBody r1 with
      | some (k, r2) =>
        match r2 with
        | ':' :: r3 =>
          match parseVal f r3 with
          | some (v, r4) =>
            match parseObjTail f r4 with
            | some (fs, r5) => some ((String.mk k, v) :: fs, r5)
            | none => none
          | none => none
        | _ => none
      | none => none
    | _ => none

end

/-- `json.loads` / `JSON.parse`: the whole string must be consumed by
one JSON value. -/
def loads (s : String) : Option Json :=
  match parseVal (2 * s.length + 2) s.data with
  | some (v, []) => some v
  | _ => Option.none

/-- The input does not start with a decimal digit (delimits number
literals in the serialized output). -/
def noDigitHead : List Char → Bool
  | [] => true
  | c :: _ => !c.isDigit

mutual

/-- Fuel that suffices for `parseVal` on the rendering of a value. -/
def Json.fsize : Json → Nat
  | Json.null => 1
  | Json.bool _ => 1
  | Json.num _ => 1
  | Json.str _ => 1
  | Json.arr xs => 1 + Json.fsizeArr xs
  | Json.obj fs => 1 + Json.fsizeObj fs

/-- Fuel that suffices for `parseArrTail` on an array continuation. -/
def Json.fsizeArr : List Json → Nat
  | [] => 1
  | v :: vs => 1 + Json.fsize v + Json.fsizeArr vs

/-- Fuel that suffices for `parseObjTail` on an object continuation. -/
def Json.fsizeObj : List (String × Json) → Nat
  | [] => 1
  | (_, v) :: fs => 1 + Json.fsize v + Json.fsizeObj fs

end

/-- Decimal string of a counter value (Python `str` / JavaScript string
conversion of a non-negative integer). -/
def natStr (n : Nat) : String := String.mk (natChars n)

mutual

/-- The JSON image of a Python value, or (for `json.dumps` failure) the
class name of the first non-serializable object encountered. -/
def PyVal.toJson : PyVal → Except String Json
  | PyVal.none => Except.ok Json.null
  | PyVal.bool b => Except.ok (Json.bool b)
  | PyVal.int n => Except.ok (Json.num n)
  | PyVal.str s => Except.ok (Json.str s)
  | PyVal.list xs =>
    match PyVal.toJsonList xs with
    | Except.ok js => Except.ok (Json.arr js)
    | Except.error e => Except.error e
  | PyVal.dict fs =>
    match PyVal.toJsonFields fs with
    | Except.ok gs => Except.ok (Json.obj gs)
    | Except.error e => Except.error e
  | PyVal.pyobj ty => Except.error ty

/-- `PyVal.toJson` on the elements of a Python list. -/
def PyVal.toJsonList : List PyVal → Except String (List Json)
  | [] => Except.ok []
  | v :: vs =>
    match PyVal.toJson v with
    | Except.ok j =>
      match PyVal.toJsonList vs with
      | Except.ok js => Except.ok (j :: js)
      | Except.error e => Except.error e
    | Except.error e => Except.error e

/-- `PyVal.toJson` on the members of a Python dict. -/
def PyVal.toJsonFields : List (String × PyVal) → Except String (List (String × Json))
  | [] => Except.ok []
  | (k, v) :: fs =>
    match PyVal.toJson v with
    | Except.ok j =>
      match PyVal.toJsonFields fs with
      | Except.ok gs => Except.ok ((k, j) :: gs)
      | Except.error e => Except.error e
    | Except.error e => Except.error e

end

mutual

/-- The Python value produced by `json.loads` for a wire value. -/
def Json.toPy : Json → PyVal
  | Json.null => PyVal.none
  | Json.bool b => PyVal.bool b
  | Json.num n => PyVal.int n
  | Json.str s => PyVal.str s
  | Json.arr xs => PyVal.list (Json.toPyList xs)
  | Json.obj fs => PyVal.dict (Json.toPyFields fs)

/-- `Json.toPy` on array elements. -/
def Json.toPyList : List Json → List PyVal
  | [] => []
  | v :: vs => Json.toPy v :: Json.toPyList vs

/-- `Json.toPy` on object members. -/
def Json.toPyFields : List (String × Json) → List (String × PyVal)
  | [] => []
  | (k, v) :: fs => (k, Json.toPy v) :: Json.toPyFields fs

end

/-- A raised Python exception, reduced to what `call_python` reports:
`e.__class__.__name__` and `str(e)`. -/
structure PyError where
  type : String
  message : String

/-- The error payload `call_python` builds from an exception:
`{"type": ..., "message": ...}`. -/
def errJson (e : PyError) : Json :=
  Json.obj [("type", Json.str e.type), ("message", Json.str e.message)]

/-- `json.dumps` on a Python value: the wire text, or the `TypeError`
the serializer raises on a non-serializable object. -/
def dumpsPy (v : PyVal) : Except PyError String :=
  match PyVal.toJson v with
  | Except.ok j => Except.ok (dumps j)
  | Except.error ty =>
    Except.error ⟨"TypeError", "Object of type " ++ ty ++ " is not JSON serializable"⟩

/-- Last-writer-wins insertion into a Python `dict` / JavaScript `Map`
(modelled as an association list keyed by strings). -/
def mset {α : Type} (m : List (String × α)) (k : String) (v : α) :
    List (String × α) :=
  (k, v) :: m.filter (fun p => p.1 != k)

/-- Key removal (`Map.delete`). -/
def mdel {α : Type} (m : List (String × α)) (k : String) : List (String × α) :=
  m.filter (fun p => p.1 != k)

/-- Python `dict.get(name)`: the stored value, or `None` when absent. -/
def dgetD (m : List (String × PyVal)) (k : String) : PyVal :=
  match m.lookup k with
  | some v => v
  | Option.none => PyVal.none

/-- The mutable state of one `DisplayLib` instance: its `constants`
dict and (as the field `vars`) its `variables` dict; the method registry
is carried separately so the state stays first-order data. -/
structure DisplayLibState where
  constants : List (String × PyVal)
  vars : List (String × PyVal)

/-- A registered host-side callable: positional arguments and current
state in; a returned value or a raised exception, and the state after
any side effects, out. -/
def PyMethod : Type :=
  List PyVal → DisplayLibState → Except PyError PyVal × DisplayLibState

/-- One `pythonResult` signal emission:
`(requestId, payloadJSON, errorJSON)`. -/
structure ResultMsg where
  requestId : String
  payload : String
  error : String

namespace JSBridge

/-- `JSBridge.call_python`: the list of `pythonResult` emissions the
slot performs for one incoming call (in order), and the state after it.
Every exception raised inside the `try` (including a `json.dumps`
failure on the result) is caught by the `except` clause and turned into
an error emission. -/
def call_python (methods : List (String × PyMethod)) (st : DisplayLibState)
    (func_name : String) (args : List PyVal) (request_id : String) :
    List ResultMsg × DisplayLibState :=
  match methods.lookup func_name with
  | some f =>
    match f args st with
    | (Except.ok result, st2) =>
      match dumpsPy result with
      | Except.ok payload => ([⟨request_id, payload, dumps Json.null⟩], st2)
      | Except.error e => ([⟨request_id, dumps Json.null, dumps (errJson e)⟩], st2)
    | (Except.error e, st2) => ([⟨request_id, dumps Json.null, dumps (errJson e)⟩], st2)
  | Option.none =>
    ([⟨request_id, dumps Json.null,
       dumps (errJson ⟨"NoSuchMethod", func_name ++ " not found"⟩)⟩], st)

/-- `JSBridge.get_constant`: `json.dumps(constants.get(name))`. -/
def get_constant (st : DisplayLibState) (name : String) : Except PyError String :=
  dumpsPy (dgetD st.constants name)

/-- `JSBridge.get_variable`: `json.dumps(variables.get(name))`. -/
def get_variable (st : DisplayLibState) (name : String) : Except PyError String :=
  dumpsPy (dgetD st.vars name)

/-- `JSBridge.set_variable`: try `json.loads(value)`; the bare `except`
catches any failure, in which case the raw wire string is stored
unchanged. -/
def set_variable (st : DisplayLibState) (name value : String) : DisplayLibState :=
  match loads value with
  | some j => { st with vars := mset st.vars name (Json.toPy j) }
  | Option.none => { st with vars := mset st.vars name (PyVal.str value) }

end JSBridge

namespace DisplayLib

/-- `DisplayLib.define_constant` (overwriting allowed). -/
def define_constant (st : DisplayLibState) (name : String) (value : PyVal) :
    DisplayLibState :=
  { st with constants := mset st.constants name value }

/-- `DisplayLib.define_variable`. -/
def define_variable (st : DisplayLibState) (name : String) (initial_value : PyVal) :
    DisplayLibState :=
  { st with vars := mset st.vars name initial_value }

/-- `DisplayLib.get_variable` (host side): `variables.get(name)`. -/
def get_variable (st : DisplayLibState) (name : String) : PyVal :=
  dgetD st.vars name

/-- `DisplayLib.set_variable` (host side). -/
def set_variable (st : DisplayLibState) (name : String) (value : PyVal) :
    DisplayLibState :=
  { st with vars := mset st.vars name value }

end DisplayLib

/-- JavaScript truthiness of a parsed JSON value (the `if (errorObj)`
test in the result handler). -/
def jsTruthy : Json → Bool
  | Json.null => false
  | Json.bool b => b
  | Json.num n => n != 0
  | Json.str s => s != ""
  | Json.arr _ => true
  | Json.obj _ => true

/-- A transmitted Call: `pyBridge.call_python(funcName, args, reqId)`. -/
structure CallMsg where
  funcName : String
  args : List Json
  requestId : String

/-- How a guest deferred was settled. -/
inductive GuestOutcome where
  | resolveJ (v : Json) : GuestOutcome
  | rejectJ (e : Json) : GuestOutcome

/-- Guest-side stub state: the `requestId` counter, the `_pendingCalls`
map (correlation ID to the deferred token, the counter value used for
it), and the trace of settlements performed so far (each resolve/reject
of a pending deferred appends one entry). -/
structure StubState where
  requestId : Nat
  pendingCalls : List (String × Nat)
  settled : List (String × GuestOutcome)

/-- A fresh correlation ID: `'req_' + (requestId++)`. -/
def reqIdOf (n : Nat) : String := "req_" ++ natStr n

/-- The stub state of a fresh page (counter `0`, empty pending map, no
settlements). -/
def initialStub : StubState := ⟨0, [], []⟩

namespace DisplayLib

/-- `DisplayLib.callPython` (guest): allocate `'req_' + (requestId++)`,
store the deferred in `_pendingCalls`, transmit the Call. -/
def callPython (st : StubState) (funcName : String) (args : List Json) :
    CallMsg × StubState :=
  let reqId := reqIdOf st.requestId
  (⟨funcName, args, reqId⟩,
   { st with
      requestId := st.requestId + 1,
      pendingCalls := mset st.pendingCalls reqId st.requestId })

end DisplayLib

/-- The guest handler connected to the `pythonResult` signal: if the
correlation ID has no pending entry the Result is discarded; otherwise
the entry is deleted first, then the deferred is rejected with the
parsed error when that is truthy, else resolved with the parsed
payload.  A `JSON.parse` throw inside the handler settles nothing (the
entry is already gone). -/
def pythonResultHandler (st : StubState) (msg : ResultMsg) : StubState :=
  match st.pendingCalls.lookup msg.requestId with
  | Option.none => st
  | some _ =>
    let st2 := { st with pendingCalls := mdel st.pendingCalls msg.requestId }
    match loads msg.error with
    | Option.none => st2
    | some errorObj =>
      if jsTruthy errorObj then
        { st2 with settled := st2.settled ++ [(msg.requestId, GuestOutcome.rejectJ errorObj)] }
      else
        match loads msg.payload with
        | some p =>
          { st2 with settled := st2.settled ++ [(msg.requestId, GuestOutcome.resolveJ p)] }
        | Option.none => st2

namespace DisplayLib

/-- `DisplayLib.getConstant` (guest): call the `get_constant` slot and
`JSON.parse` a truthy result.  A slot exception or a `JSON.parse` throw
is an error. -/
def getConstant (st : DisplayLibState) (name : String) : Except PyError Json :=
  match JSBridge.get_constant st name with
  | Except.ok wire =>
    if wire = "" then Except.ok Json.null
    else
      match loads wire with
      | some j => Except.ok j
      | Option.none => Except.error ⟨"SyntaxError", "Unexpected token in JSON"⟩
  | Except.error e => Except.error e

/-- `DisplayLib.getVariable` (guest): same shape over `get_variable`. -/
def getVariable (st : DisplayLibState) (name : String) : Except PyError Json :=
  match JSBridge.get_variable st name with
  | Except.ok wire =>
    if wire = "" then Except.ok Json.null
    else
      match loads wire with
      | some j => Except.ok j
      | Option.none => Except.error ⟨"SyntaxError", "Unexpected token in JSON"⟩
  | Except.error e => Except.error e

/-- `DisplayLib.setVariable` (guest): `JSON.stringify` the value, send
it to the `set_variable` slot, return `true`. -/
def setVariable (st : DisplayLibState) (name : String) (value : Json) :
    DisplayLibState × Bool :=
  (JSBridge.set_variable st name (dumps value), true)

end DisplayLib

mutual

/-- Python `str()` of a value, as used by the f-string in
`show_message` (element quoting of `repr` inside containers is
elided). -/
def pyStr : PyVal → String
  | PyVal.none => "None"
  | PyVal.bool true => "True"
  | PyVal.bool false => "False"
  | PyVal.int n => String.mk (intChars n)
  | PyVal.str s => s
  | PyVal.list xs => "[" ++ pyStrList xs ++ "]"
  | PyVal.dict fs => "\x7b" ++ pyStrFields fs ++ "\x7d"
  | PyVal.pyobj ty => "<" ++ ty ++ " object>"

/-- Comma-joined `str()` of list elements. -/
def pyStrList : List PyVal → String
  | [] => ""
  | [v] => pyStr v
  | v :: w :: vs => pyStr v ++ ", " ++ pyStrList (w :: vs)

/-- Comma-joined `str()` of dict members. -/
def pyStrFields : List (String × PyVal) → String
  | [] => ""
  | [(k, v)] => k ++ ": " ++ pyStr v
  | (k, v) :: p :: fs => k ++ ": " ++ pyStr v ++ ", " ++ pyStrFields (p :: fs)

end

namespace DisplayLibDemo

/-- `DisplayLibDemo.increment_counter(amount=1)`: read `counter`, add
`amount`, store and return the sum.  Python `+` is modelled on
integers and on strings; any other operand pairing raises
`TypeError`. -/
def increment_counter : PyMethod := fun args st =>
  match args with
  | [] =>
    match DisplayLib.get_variable st "counter" with
    | PyVal.int c =>
      (Except.ok (PyVal.int (c + 1)), DisplayLib.set_variable st "counter" (PyVal.int (c + 1)))
    | _ => (Except.error ⟨"TypeError", "unsupported operand type(s) for +"⟩, st)
  | [a] =>
    match DisplayLib.get_variable st "counter", a with
    | PyVal.int c, PyVal.int d =>
      (Except.ok (PyVal.int (c + d)), DisplayLib.set_variable st "counter" (PyVal.int (c + d)))
    | PyVal.str c, PyVal.str d =>
      (Except.ok (PyVal.str (c ++ d)), DisplayLib.set_variable st "counter" (PyVal.str (c ++ d)))
    | _, _ => (Except.error ⟨"TypeError", "unsupported operand type(s) for +"⟩, st)
  | _ => (Except.error ⟨"TypeError", "increment_counter() takes at most 1 argument"⟩, st)

/-- `DisplayLibDemo.show_message`: display the message (a GUI side
effect outside the state model) and return the confirmation string. -/
def show_message : PyMethod := fun args st =>
  match args with
  | [m] => (Except.ok (PyVal.str ("Message displayed: " ++ pyStr m)), st)
  | _ => (Except.error ⟨"TypeError", "show_message() takes 1 argument"⟩, st)

/-- `DisplayLibDemo.add_item`: append to the `items` variable when its
length is below the `MAX_ITEMS` constant (a `KeyError` if that constant
is missing), else return `False` without modifying the list.  `len` is
modelled on lists; a non-list `items` raises `TypeError`. -/
def add_item : PyMethod := fun args st =>
  match args with
  | [item] =>
    match DisplayLib.get_variable st "items" with
    | PyVal.list items =>
      match st.constants.lookup "MAX_ITEMS" with
      | some (PyVal.int maxItems) =>
        if (items.length : Int) < maxItems then
          (Except.ok (PyVal.bool true),
           DisplayLib.set_variable st "items" (PyVal.list (items ++ [item])))
        else (Except.ok (PyVal.bool false), st)
      | some _ => (Except.error ⟨"TypeError", "not supported between instances"⟩, st)
      | Option.none => (Except.error ⟨"KeyError", "MAX_ITEMS"⟩, st)
    | _ => (Except.error ⟨"TypeError", "object has no len()"⟩, st)
  | _ => (Except.error ⟨"TypeError", "add_item() takes 1 argument"⟩, st)

/-- `DisplayLibDemo.get_items`: return the `items` variable. -/
def get_items : PyMethod := fun args st =>
  match args with
  | [] => (Except.ok (DisplayLib.get_variable st "items"), st)
  | _ => (Except.error ⟨"TypeError", "get_items() takes no arguments"⟩, st)

/-- `DisplayLibDemo.change_theme`: store the theme and return `True`
when it is `"light"` or `"dark"`, else return `False`. -/
def change_theme : PyMethod := fun args st =>
  match args with
  | [new_theme] =>
    match new_theme with
    | PyVal.str s =>
      if s = "light" ∨ s = "dark" then
        (Except.ok (PyVal.bool true), DisplayLib.set_variable st "theme" (PyVal.str s))
      else (Except.ok (PyVal.bool false), st)
    | _ => (Except.ok (PyVal.bool false), st)
  | _ => (Except.error ⟨"TypeError", "change_theme() takes 1 argument"⟩, st)

/-- The constants and variables installed by
`DisplayLibDemo.setup_demo` (the float constant `PI = 3.14159` lies
outside the integer-numeric value model and is left out; no claim
touches it). -/
def demoState : DisplayLibState :=
  let s0 : DisplayLibState := ⟨[], []⟩
  let s1 := DisplayLib.define_constant s0 "APP_NAME" (PyVal.str "DisplayLib Demo")
  let s2 := DisplayLib.define_constant s1 "VERSION" (PyVal.str "1.0.0")
  let s3 := DisplayLib.define_constant s2 "MAX_ITEMS" (PyVal.int 10)
  let s4 := DisplayLib.define_variable s3 "counter" (PyVal.int 0)
  let s5 := DisplayLib.define_variable s4 "userName" (PyVal.str "Guest")
  let s6 := DisplayLib.define_variable s5 "items"
      (PyVal.list [PyVal.str "Item 1", PyVal.str "Item 2"])
  DisplayLib.define_variable s6 "theme" (PyVal.str "light")

/-- The method registry installed by `DisplayLibDemo.setup_demo`. -/
def demoMethods : List (String × PyMethod) :=
  [("incrementCounter", increment_counter),
   ("showMessage", show_message),
   ("addItem", add_item),
   ("getItems", get_items),
   ("changeTheme", change_theme)]

end DisplayLibDemo

/-- One guest-side event: issuing a call, or receiving a Result. -/
inductive StubAction where
  | call (funcName : String) (args : List Json) : StubAction
  | result (msg : ResultMsg) : StubAction

/-- Effect of one event on the stub state. -/
def stubStep (st : StubState) : StubAction → StubState
  | StubAction.call funcName args => (DisplayLib.callPython st funcName args).2
  | StubAction.result msg => pythonResultHandler st msg

/-- A whole session: the events in arrival order. -/
def runStub (st : StubState) (acts : List StubAction) : StubState :=
  acts.foldl stubStep st

/-- Session invariant: settlements are pairwise distinct by correlation
ID, settled IDs are no longer pending, and every ID in sight was issued
by the counter. -/
def StubInv (st : StubState) : Prop :=
  (st.settled.map Prod.fst).Nodup
  ∧ (∀ id ∈ st.settled.map Prod.fst, st.pendingCalls.lookup id = Option.none)
  ∧ (∀ id ∈ st.settled.map Prod.fst, ∃ j, j < st.requestId ∧ id = reqIdOf j)
  ∧ (∀ p ∈ st.pendingCalls, ∃ j, j < st.requestId ∧ p.1 = reqIdOf j)

/-- The spec's Method Registry `invoke`: direct invocation of a
registered method (absent name fails with `NoSuchMethod`), stated from
the spec's words for the refinement comparison. -/
def invoke (methods : List (String × PyMethod)) (name : String)
    (args : List PyVal) (st : DisplayLibState) :
    Except PyError PyVal × DisplayLibState :=
  match methods.lookup name with
  | some f => f args st
  | Option.none => (Except.error ⟨"NoSuchMethod", name ++ " not found"⟩, st)

/-- `n` successive `addItem("c")` calls through the bridge: the emitted
Results (in call order) and the final state. -/
def addItemCalls : Nat → DisplayLibState → List ResultMsg × DisplayLibState
  | 0, st => ([], st)
  | n + 1, st =>
    let r := JSBridge.call_python DisplayLibDemo.demoMethods st "addItem"
        [PyVal.str "c"] (reqIdOf n)
    let rest := addItemCalls n r.2
    (r.1 ++ rest.1, rest.2)

/-- Length of a Python list value (`len`), when the value is a list. -/
def pyListLen : PyVal → Option Nat
  | PyVal.list xs => some xs.length
  | _ => Option.none

/-- Test fixture for the serialization-failure path: a registered
method returning a Python `set`, which `json.dumps` cannot encode. -/
def fixtureSetMethod : PyMethod := fun _ st => (Except.ok (PyVal.pyobj "set"), st)

theorem digitChar_isDigit (d : Nat) (h : d < 10) : (digitChar d).isDigit = true := by
  interval_cases d <;> decide

theorem digitChar_toNat (d : Nat) (h : d < 10) : (digitChar d).toNat - 48 = d := by
  interval_cases d <;> decide

theorem natChars_isDigit (n : Nat) : ∀ c ∈ natChars n, c.isDigit = true := by
  intro c hc
  unfold natChars at hc
  by_cases h : n = 0
  · simp [h] at hc
    subst hc
    decide
  · simp [h] at hc
    obtain ⟨d, hd, rfl⟩ := hc
    exact digitChar_isDigit d (Nat.digits_lt_base (by norm_num) hd)

theorem natChars_ne_nil (n : Nat) : natChars n ≠ [] := by
  unfold natChars
  by_cases h : n = 0
  · simp [h]
  · simp [h, Nat.digits_ne_nil_iff_ne_zero]

theorem natChars_cons (n : Nat) :
    ∃ c cs, natChars n = c :: cs ∧ c.isDigit = true := by
  cases hnc : natChars n with
  | nil => exact absurd hnc (natChars_ne_nil n)
  | cons c cs =>
    exact ⟨c, cs, rfl, natChars_isDigit n c (by rw [hnc]; simp)⟩

theorem takeDigits_append (ds rest : List Char) (h1 : ∀ c ∈ ds, c.isDigit = true)
    (h2 : noDigitHead rest = true) : takeDigits (ds ++ rest) = (ds, rest) := by
  induction ds with
  | nil =>
    simp only [List.nil_append]
    cases rest with
    | nil => rfl
    | cons c cs =>
      have hc : c.isDigit = false := by simpa [noDigitHead] using h2
      simp [takeDigits, hc]
  | cons c ds ih =>
    have hc : c.isDigit = true := h1 c (by simp)
    have ih2 := ih (fun x hx => h1 x (by simp [hx]))
    simp only [List.cons_append, takeDigits, hc, if_true, List.append_eq, ih2]

theorem digitsVal_aux (l : List Nat) (a : Nat) (h : ∀ d ∈ l, d < 10) :
    List.foldl (fun x c => 10 * x + (c.toNat - 48)) a ((l.map digitChar).reverse)
      = a * 10 ^ l.length + Nat.ofDigits 10 l := by
  induction l generalizing a with
  | nil => simp [Nat.ofDigits]
  | cons d l ih =>
    have hd : d < 10 := h d (by simp)
    simp only [List.map_cons, List.reverse_cons, List.foldl_append, List.foldl_cons,
      List.foldl_nil]
    rw [ih a (fun x hx => h x (by simp [hx])), digitChar_toNat d hd]
    simp only [List.length_cons, Nat.ofDigits_cons, pow_succ]
    ring

theorem digitsVal_natChars (n : Nat) : digitsVal (natChars n) = n := by
  unfold natChars digitsVal
  by_cases h : n = 0
  · simp [h]
  · simp only [h, if_false]
    rw [digitsVal_aux _ 0 (fun d hd => Nat.digits_lt_base (by norm_num) hd)]
    simp [Nat.ofDigits_digits]

theorem parseNum_natChars (n : Nat) (rest : List Char) (h : noDigitHead rest = true) :
    parseNum (natChars n ++ rest) = some (n, rest) := by
  unfold parseNum
  rw [takeDigits_append _ _ (natChars_isDigit n) h]
  obtain ⟨c, cs, hcc, -⟩ := natChars_cons n
  rw [hcc]
  have : digitsVal (c :: cs) = n := by rw [← hcc, digitsVal_natChars]
  simp [this]

theorem parseStrBody_cons_plain (c : Char) (cs : List Char)
    (h1 : c ≠ '\\') (h2 : c ≠ '"') :
    parseStrBody (c :: cs) =
      match parseStrBody cs with
      | some (l, r) => some (c :: l, r)
      | none => Option.none := by
  rw [parseStrBody.eq_def]
  split
  · rename_i heq
    exact absurd heq (List.cons_ne_nil c cs)
  · rename_i c2 cs2 heq
    injection heq with hh ht
    exact absurd hh h1
  · rename_i cs2 heq
    injection heq with hh ht
    exact absurd hh h2
  · rename_i c2 cs2 hna hnb heq
    injection heq with hh ht
    subst hh
    subst ht
    rfl

theorem parseStrBody_esc (l rest : List Char) :
    parseStrBody (escChars l ++ '"' :: rest) = some (l, rest) := by
  induction l with
  | nil => rfl
  | cons c l ih =>
    by_cases hc : c = '"' ∨ c = '\\'
    · simp only [escChars, hc, if_true, List.cons_append]
      simp only [parseStrBody, ih]
    · simp only [escChars, hc, if_false, List.cons_append]
      rw [parseStrBody_cons_plain c _ (fun h => hc (Or.inr h)) (fun h => hc (Or.inl h))]
      simp only [ih]

theorem Json.fsize_pos (v : Json) : 1 ≤ Json.fsize v := by
  cases v <;> simp [Json.fsize]

theorem Json.fsizeArr_pos (vs : List Json) : 1 ≤ Json.fsizeArr vs := by
  cases vs <;> simp [Json.fsizeArr] <;> omega

theorem Json.fsizeObj_pos (fs : List (String × Json)) : 1 ≤ Json.fsizeObj fs := by
  cases fs with
  | nil => simp [Json.fsizeObj]
  | cons p fs => obtain ⟨k, v⟩ := p; simp [Json.fsizeObj]; omega

theorem Json.render_cons (v : Json) :
    ∃ c cs, Json.render v = c :: cs ∧ c ≠ ']' ∧ c ≠ '\x7d' := by
  cases v with
  | null => exact ⟨'n', _, rfl, by decide, by decide⟩
  | bool b =>
    cases b
    · exact ⟨'f', _, rfl, by decide, by decide⟩
    · exact ⟨'t', _, rfl, by decide, by decide⟩
  | num n =>
    by_cases h : n < 0
    · refine ⟨'-', natChars n.natAbs, ?_, by decide, by decide⟩
      simp [Json.render, intChars, h]
    · obtain ⟨c, cs, hcc, hd⟩ := natChars_cons n.natAbs
      refine ⟨c, cs, by simp [Json.render, intChars, h, hcc], ?_, ?_⟩
      · intro hne; rw [hne] at hd; exact absurd hd (by decide)
      · intro hne; rw [hne] at hd; exact absurd hd (by decide)
  | str s => exact ⟨'"', _, rfl, by decide, by decide⟩
  | arr xs => exact ⟨'[', _, rfl, by decide, by decide⟩
  | obj fs => exact ⟨'\x7b', _, rfl, by decide, by decide⟩

theorem noDigitHead_arrSep (vs : List Json) (rest : List Char) :
    noDigitHead (Json.renderArrSep vs ++ rest) = true := by
  cases vs <;> rfl

theorem noDigitHead_objSep (fs : List (String × Json)) (rest : List Char) :
    noDigitHead (Json.renderObjSep fs ++ rest) = true := by
  cases fs with
  | nil => rfl
  | cons p fs => obtain ⟨k, v⟩ := p; rfl

theorem parseVal_digit (f : Nat) (c : Char) (M : List Char) (h : c.isDigit = true) :
    parseVal (f + 1) (c :: M) =
      match parseNum (c :: M) with
      | some (n, r) => some (Json.num (n : Int), r)
      | none => Option.none := by
  simp only [parseVal, h, if_true]

/-- Joint fuel-sufficiency statement: on serialized output followed by a
non-digit boundary, each reader returns exactly the serialized value and
the boundary. -/
theorem parseGood : ∀ k : Nat,
    (∀ v : Json, Json.fsize v ≤ k → ∀ f, Json.fsize v ≤ f →
      ∀ rest, noDigitHead rest = true →
      parseVal f (Json.render v ++ rest) = some (v, rest)) ∧
    (∀ vs : List Json, Json.fsizeArr vs ≤ k → ∀ f, Json.fsizeArr vs ≤ f →
      ∀ rest, noDigitHead rest = true →
      parseArrTail f (Json.renderArrSep vs ++ rest) = some (vs, rest)) ∧
    (∀ fs : List (String × Json), Json.fsizeObj fs ≤ k → ∀ f, Json.fsizeObj fs ≤ f →
      ∀ rest, noDigitHead rest = true →
      parseObjTail f (Json.renderObjSep fs ++ rest) = some (fs, rest)) := by
  intro k
  induction k using Nat.strong_induction_on with
  | _ k ih =>
    refine ⟨?_, ?_, ?_⟩
    · intro v hk f hf rest hrest
      cases v with
      | null =>
        simp only [Json.fsize] at hf
        obtain ⟨f2, rfl⟩ : ∃ f2, f = f2 + 1 := ⟨f - 1, by omega⟩
        rfl
      | bool b =>
        simp only [Json.fsize] at hf
        obtain ⟨f2, rfl⟩ : ∃ f2, f = f2 + 1 := ⟨f - 1, by omega⟩
        cases b <;> rfl
      | num n =>
        simp only [Json.fsize] at hf
        obtain ⟨f2, rfl⟩ : ∃ f2, f = f2 + 1 := ⟨f - 1, by omega⟩
        by_cases h : n < 0
        · have e1 : Json.render (Json.num n) ++ rest
              = '-' :: (natChars n.natAbs ++ rest) := by
            simp [Json.render, intChars, h]
          rw [e1]
          have hstep : parseVal (f2 + 1) ('-' :: (natChars n.natAbs ++ rest)) =
              (match parseNum (natChars n.natAbs ++ rest) with
               | some (m, r) => some (Json.num (-(m : Int)), r)
               | none => Option.none) := rfl
          rw [hstep, parseNum_natChars _ _ hrest]
          have e2 : -((n.natAbs : Int)) = n := by omega
          dsimp only
          rw [e2]
        · obtain ⟨c, cs, hcc, hd⟩ := natChars_cons n.natAbs
          have e1 : Json.render (Json.num n) ++ rest = c :: (cs ++ rest) := by
            simp [Json.render, intChars, h, hcc]
          rw [e1, parseVal_digit f2 c (cs ++ rest) hd]
          have e2 : c :: (cs ++ rest) = natChars n.natAbs ++ rest := by
            rw [hcc]; simp
          rw [e2, parseNum_natChars _ _ hrest]
          have e3 : ((n.natAbs : Nat) : Int) = n := by omega
          dsimp only
          rw [e3]
      | str s =>
        simp only [Json.fsize] at hf
        obtain ⟨f2, rfl⟩ : ∃ f2, f = f2 + 1 := ⟨f - 1, by omega⟩
        have e1 : Json.render (Json.str s) ++ rest
            = '"' :: (escChars s.data ++ '"' :: rest) := by
          simp [Json.render, strChars]
        rw [e1]
        have hstep : parseVal (f2 + 1) ('"' :: (escChars s.data ++ '"' :: rest)) =
            (match parseStrBody (escChars s.data ++ '"' :: rest) with
             | some (l, r) => some (Json.str (String.mk l), r)
             | none => Option.none) := rfl
        rw [hstep, parseStrBody_esc]
      | arr xs =>
        cases xs with
        | nil =>
          simp only [Json.fsize, Json.fsizeArr] at hf
          obtain ⟨f2, rfl⟩ : ∃ f2, f = f2 + 1 := ⟨f - 1, by omega⟩
          rfl
        | cons v vs =>
          simp only [Json.fsize, Json.fsizeArr] at hk hf
          have hpv := Json.fsize_pos v
          have hpvs := Json.fsizeArr_pos vs
          obtain ⟨f2, rfl⟩ : ∃ f2, f = f2 + 1 := ⟨f - 1, by omega⟩
          have hPv := (ih (Json.fsize v) (by omega)).1 v le_rfl
          have hQvs := (ih (Json.fsizeArr vs) (by omega)).2.1 vs le_rfl
          have e1 : Json.render (Json.arr (v :: vs)) ++ rest
              = '[' :: (Json.render v ++ (Json.renderArrSep vs ++ rest)) := by
            simp [Json.render, Json.renderItems]
          rw [e1]
          have hstep : parseVal (f2 + 1)
              ('[' :: (Json.render v ++ (Json.renderArrSep vs ++ rest))) =
              (if (Json.render v ++ (Json.renderArrSep vs ++ rest)).head? = some ']'
               then some (Json.arr [], (Json.render v ++ (Json.renderArrSep vs ++ rest)).tail)
               else
                 match parseVal f2 (Json.render v ++ (Json.renderArrSep vs ++ rest)) with
                 | some (w, r) =>
                   match parseArrTail f2 r with
                   | some (ws, r2) => some (Json.arr (w :: ws), r2)
                   | none => Option.none
                 | none => Option.none) := rfl
          rw [hstep]
          obtain ⟨c, cs, hcc, hne1, hne2⟩ := Json.render_cons v
          have hhead : (Json.render v ++ (Json.renderArrSep vs ++ rest)).head? ≠ some ']' := by
            rw [hcc]; simp [hne1]
          rw [if_neg hhead, hPv f2 (by omega) _ (noDigitHead_arrSep vs rest)]
          dsimp only
          rw [hQvs f2 (by omega) rest hrest]
      | obj fs =>
        cases fs with
        | nil =>
          simp only [Json.fsize, Json.fsizeObj] at hf
          obtain ⟨f2, rfl⟩ : ∃ f2, f = f2 + 1 := ⟨f - 1, by omega⟩
          rfl
        | cons p fs =>
          obtain ⟨k0, v⟩ := p
          simp only [Json.fsize, Json.fsizeObj] at hk hf
          have hpv := Json.fsize_pos v
          have hpfs := Json.fsizeObj_pos fs
          obtain ⟨f2, rfl⟩ : ∃ f2, f = f2 + 1 := ⟨f - 1, by omega⟩
          have hPv := (ih (Json.fsize v) (by omega)).1 v le_rfl
          have hQfs := (ih (Json.fsizeObj fs) (by omega)).2.2 fs le_rfl
          have e1 : Json.render (Json.obj ((k0, v) :: fs)) ++ rest
              = '\x7b' :: ('"' :: (escChars k0.data ++
                  '"' :: (':' :: (Json.render v ++ (Json.renderObjSep fs ++ rest))))) := by
            simp [Json.render, Json.renderFields, strChars]
          rw [e1]
          have hstep : parseVal (f2 + 1)
              ('\x7b' :: ('"' :: (escChars k0.data ++
                  '"' :: (':' :: (Json.render v ++ (Json.renderObjSep fs ++ rest)))))) =
              (match parseStrBody (escChars k0.data ++
                  '"' :: (':' :: (Json.render v ++ (Json.renderObjSep fs ++ rest)))) with
               | some (ky, r2) =>
                 match r2 with
                 | ':' :: r3 =>
                   match parseVal f2 r3 with
                   | some (w, r4) =>
                     match parseObjTail f2 r4 with
                     | some (ws, r5) => some (Json.obj ((String.mk ky, w) :: ws), r5)
                     | none => Option.none
                   | none => Option.none
                 | _ => Option.none
               | none => Option.none) := rfl
          have hstep2 : parseVal (f2 + 1)
              ('\x7b' :: ('"' :: (escChars k0.data ++
                  '"' :: (':' :: (Json.render v ++ (Json.renderObjSep fs ++ rest)))))) =
              (match parseVal f2 (Json.render v ++ (Json.renderObjSep fs ++ rest)) with
               | some (w, r4) =>
                 match parseObjTail f2 r4 with
                 | some (ws, r5) => some (Json.obj ((String.mk k0.data, w) :: ws), r5)
                 | none => Option.none
               | none => Option.none) := by
            rw [hstep, parseStrBody_esc]
            rfl
          rw [hstep2, hPv f2 (by omega) _ (noDigitHead_objSep fs rest)]
          dsimp only
          rw [hQfs f2 (by omega) rest hrest]
    · intro vs hk f hf rest hrest
      cases vs with
      | nil =>
        simp only [Json.fsizeArr] at hf
        obtain ⟨f2, rfl⟩ : ∃ f2, f = f2 + 1 := ⟨f - 1, by omega⟩
        rfl
      | cons v vs =>
        simp only [Json.fsizeArr] at hk hf
        have hpv := Json.fsize_pos v
        have hpvs := Json.fsizeArr_pos vs
        obtain ⟨f2, rfl⟩ : ∃ f2, f = f2 + 1 := ⟨f - 1, by omega⟩
        have hPv := (ih (Json.fsize v) (by omega)).1 v le_rfl
        have hQvs := (ih (Json.fsizeArr vs) (by omega)).2.1 vs le_rfl
        have e1 : Json.renderArrSep (v :: vs) ++ rest
            = ',' :: (Json.render v ++ (Json.renderArrSep vs ++ rest)) := by
          simp [Json.renderArrSep]
        rw [e1]
        have hstep : parseArrTail (f2 + 1)
            (',' :: (Json.render v ++ (Json.renderArrSep vs ++ rest))) =
            (match parseVal f2 (Json.render v ++ (Json.renderArrSep vs ++ rest)) with
             | some (w, r2) =>
               match parseArrTail f2 r2 with
               | some (ws, r3) => some (w :: ws, r3)
               | none => Option.none
             | none => Option.none) := rfl
        rw [hstep, hPv f2 (by omega) _ (noDigitHead_arrSep vs rest)]
        dsimp only
        rw [hQvs f2 (by omega) rest hrest]
    · intro fs hk f hf rest hrest
      cases fs with
      | nil =>
        simp only [Json.fsizeObj] at hf
        obtain ⟨f2, rfl⟩ : ∃ f2, f = f2 + 1 := ⟨f - 1, by omega⟩
        rfl
      | cons p fs =>
        obtain ⟨k0, v⟩ := p
        simp only [Json.fsizeObj] at hk hf
        have hpv := Json.fsize_pos v
        have hpfs := Json.fsizeObj_pos fs
        obtain ⟨f2, rfl⟩ : ∃ f2, f = f2 + 1 := ⟨f - 1, by omega⟩
        have hPv := (ih (Json.fsize v) (by omega)).1 v le_rfl
        have hQfs := (ih (Json.fsizeObj fs) (by omega)).2.2 fs le_rfl
        have e1 : Json.renderObjSep ((k0, v) :: fs) ++ rest
            = ',' :: ('"' :: (escChars k0.data ++
                '"' :: (':' :: (Json.render v ++ (Json.renderObjSep fs ++ rest))))) := by
          simp [Json.renderObjSep, strChars]
        rw [e1]
        have hstep : parseObjTail (f2 + 1)
            (',' :: ('"' :: (escChars k0.data ++
                '"' :: (':' :: (Json.render v ++ (Json.renderObjSep fs ++ rest)))))) =
            (match parseStrBody (escChars k0.data ++
                '"' :: (':' :: (Json.render v ++ (Json.renderObjSep fs ++ rest)))) with
             | some (ky, r2) =>
               match r2 with
               | ':' :: r3 =>
                 match parseVal f2 r3 with
                 | some (w, r4) =>
                   match parseObjTail f2 r4 with
                   | some (ws, r5) => some ((String.mk ky, w) :: ws, r5)
                   | none => Option.none
                 | none => Option.none
               | _ => Option.none
             | none => Option.none) := rfl
        have hstep2 : parseObjTail (f2 + 1)
            (',' :: ('"' :: (escChars k0.data ++
                '"' :: (':' :: (Json.render v ++ (Json.renderObjSep fs ++ rest)))))) =
            (match parseVal f2 (Json.render v ++ (Json.renderObjSep fs ++ rest)) with
             | some (w, r4) =>
               match parseObjTail f2 r4 with
               | some (ws, r5) => some ((String.mk k0.data, w) :: ws, r5)
               | none => Option.none
             | none => Option.none) := by
          rw [hstep, parseStrBody_esc]
          rfl
        rw [hstep2, hPv f2 (by omega) _ (noDigitHead_objSep fs rest)]
        dsimp only
        rw [hQfs f2 (by omega) rest hrest]

theorem Json.render_length_pos (v : Json) : 1 ≤ (Json.render v).length := by
  obtain ⟨c, cs, hcc, -, -⟩ := Json.render_cons v
  rw [hcc]
  simp

theorem Json.renderArrSep_length_pos (vs : List Json) :
    1 ≤ (Json.renderArrSep vs).length := by
  cases vs <;> simp [Json.renderArrSep]

theorem Json.renderObjSep_length_pos (fs : List (String × Json)) :
    1 ≤ (Json.renderObjSep fs).length := by
  cases fs with
  | nil => simp [Json.renderObjSep]
  | cons p fs => obtain ⟨k, v⟩ := p; simp [Json.renderObjSep]

/-- The fuel bound is dominated by twice the length of the rendering. -/
theorem fsizeBound : ∀ k : Nat,
    (∀ v : Json, Json.fsize v ≤ k → Json.fsize v ≤ 2 * (Json.render v).length) ∧
    (∀ vs : List Json, Json.fsizeArr vs ≤ k →
      Json.fsizeArr vs ≤ 2 * (Json.renderArrSep vs).length) ∧
    (∀ fs : List (String × Json), Json.fsizeObj fs ≤ k →
      Json.fsizeObj fs ≤ 2 * (Json.renderObjSep fs).length) := by
  intro k
  induction k using Nat.strong_induction_on with
  | _ k ih =>
    refine ⟨?_, ?_, ?_⟩
    · intro v hk
      cases v with
      | null => simp [Json.fsize, Json.render]
      | bool b => cases b <;> simp [Json.fsize, Json.render]
      | num n =>
        have h1 : 1 ≤ (Json.render (Json.num n)).length := Json.render_length_pos _
        simp only [Json.fsize]
        omega
      | str s =>
        simp only [Json.fsize, Json.render, strChars]
        simp
        omega
      | arr xs =>
        cases xs with
        | nil => simp [Json.fsize, Json.fsizeArr, Json.render, Json.renderItems]
        | cons v vs =>
          simp only [Json.fsize, Json.fsizeArr] at hk ⊢
          have hpv := Json.fsize_pos v
          have hpvs := Json.fsizeArr_pos vs
          have hv := (ih (Json.fsize v) (by omega)).1 v le_rfl
          have hvs := (ih (Json.fsizeArr vs) (by omega)).2.1 vs le_rfl
          have e1 : (Json.render (Json.arr (v :: vs))).length
              = 1 + (Json.render v).length + (Json.renderArrSep vs).length := by
            simp [Json.render, Json.renderItems]
            omega
          rw [e1]
          omega
      | obj fs =>
        cases fs with
        | nil => simp [Json.fsize, Json.fsizeObj, Json.render, Json.renderFields]
        | cons p fs =>
          obtain ⟨k0, v⟩ := p
          simp only [Json.fsize, Json.fsizeObj] at hk ⊢
          have hpv := Json.fsize_pos v
          have hpfs := Json.fsizeObj_pos fs
          have hv := (ih (Json.fsize v) (by omega)).1 v le_rfl
          have hfs := (ih (Json.fsizeObj fs) (by omega)).2.2 fs le_rfl
          have e1 : (Json.render (Json.obj ((k0, v) :: fs))).length
              = 1 + (strChars k0).length + 1 + (Json.render v).length
                + (Json.renderObjSep fs).length := by
            simp [Json.render, Json.renderFields]
            omega
          have e2 : 2 ≤ (strChars k0).length := by simp [strChars]
          rw [e1]
          omega
    · intro vs hk
      cases vs with
      | nil => simp [Json.fsizeArr, Json.renderArrSep]
      | cons v vs =>
        simp only [Json.fsizeArr] at hk ⊢
        have hpv := Json.fsize_pos v
        have hpvs := Json.fsizeArr_pos vs
        have hv := (ih (Json.fsize v) (by omega)).1 v le_rfl
        have hvs := (ih (Json.fsizeArr vs) (by omega)).2.1 vs le_rfl
        have e1 : (Json.renderArrSep (v :: vs)).length
            = 1 + (Json.render v).length + (Json.renderArrSep vs).length := by
          simp [Json.renderArrSep]
          omega
        rw [e1]
        omega
    · intro fs hk
      cases fs with
      | nil => simp [Json.fsizeObj, Json.renderObjSep]
      | cons p fs =>
        obtain ⟨k0, v⟩ := p
        simp only [Json.fsizeObj] at hk ⊢
        have hpv := Json.fsize_pos v
        have hpfs := Json.fsizeObj_pos fs
        have hv := (ih (Json.fsize v) (by omega)).1 v le_rfl
        have hfs := (ih (Json.fsizeObj fs) (by omega)).2.2 fs le_rfl
        have e1 : (Json.renderObjSep ((k0, v) :: fs)).length
            = 1 + (strChars k0).length + 1 + (Json.render v).length
              + (Json.renderObjSep fs).length := by
          simp [Json.renderObjSep]
          omega
        have e2 : 2 ≤ (strChars k0).length := by simp [strChars]
        rw [e1]
        omega

theorem Json.fsize_le (v : Json) : Json.fsize v ≤ 2 * (Json.render v).length :=
  (fsizeBound (Json.fsize v)).1 v le_rfl

/-- Serialization is value-preserving: `json.loads`/`JSON.parse` invert
`json.dumps`/`JSON.stringify`. -/
theorem loads_dumps (v : Json) : loads (dumps v) = some v := by
  have h := (parseGood (Json.fsize v)).1 v le_rfl (2 * (Json.render v).length + 2)
      (by have := Json.fsize_le v; omega) [] rfl
  rw [List.append_nil] at h
  unfold loads dumps
  rw [show (String.mk (Json.render v)).data = Json.render v from rfl,
    show (String.mk (Json.render v)).length = (Json.render v).length from rfl, h]

theorem natStr_injective (n m : Nat) (h : natStr n = natStr m) : n = m := by
  have h2 : natChars n = natChars m := congrArg String.data h
  have h3 := congrArg digitsVal h2
  simpa [digitsVal_natChars] using h3

theorem lookup_mset_self {α : Type} (m : List (String × α)) (k : String) (v : α) :
    (mset m k v).lookup k = some v := by
  simp [mset, List.lookup]

theorem lookup_filter_none {α : Type} (m : List (String × α)) (k : String)
    (p : String × α → Bool) (h : m.lookup k = Option.none) :
    (m.filter p).lookup k = Option.none := by
  induction m with
  | nil => rfl
  | cons a m ih =>
    obtain ⟨k2, v2⟩ := a
    by_cases hk : k = k2
    · subst hk
      simp [List.lookup] at h
    · have hbeq : (k == k2) = false := beq_eq_false_iff_ne.mpr hk
      simp only [List.lookup, hbeq] at h
      by_cases hp : p (k2, v2)
      · simp only [List.filter_cons, hp, if_true, List.lookup, hbeq]
        exact ih h
      · simp only [List.filter_cons, hp, if_false]
        exact ih h

theorem lookup_filter_ne {α : Type} (m : List (String × α)) (k k2 : String)
    (h : k2 ≠ k) :
    (m.filter (fun p => p.1 != k)).lookup k2 = m.lookup k2 := by
  induction m with
  | nil => rfl
  | cons a m ih =>
    obtain ⟨k3, v3⟩ := a
    by_cases hk3 : k3 = k
    · subst hk3
      have hbeq : (k2 == k3) = false := beq_eq_false_iff_ne.mpr (by simpa using h)
      simp [List.filter_cons, List.lookup, hbeq, ih]
    · have hkeep : ((k3, v3).1 != k) = true := by simpa [bne] using hk3
      simp only [List.filter_cons, hkeep, if_true, List.lookup, ih]

theorem lookup_mset_ne {α : Type} (m : List (String × α)) (k k2 : String) (v : α)
    (h : k2 ≠ k) : (mset m k v).lookup k2 = m.lookup k2 := by
  have hbeq : (k2 == k) = false := beq_eq_false_iff_ne.mpr h
  simp only [mset, List.lookup, hbeq]
  exact lookup_filter_ne m k k2 h

theorem lookup_mdel_self {α : Type} (m : List (String × α)) (k : String) :
    (mdel m k).lookup k = Option.none := by
  induction m with
  | nil => rfl
  | cons a m ih =>
    obtain ⟨k2, v2⟩ := a
    by_cases hk : k2 = k
    · subst hk
      simp only [mdel, List.filter_cons, bne_self_eq_false, if_false]
      exact ih
    · have hkeep : ((k2, v2).1 != k) = true := by simpa [bne] using hk
      have hbeq : (k == k2) = false := beq_eq_false_iff_ne.mpr (Ne.symm hk)
      simp only [mdel, List.filter_cons, hkeep, if_true, List.lookup, hbeq]
      exact ih

theorem lookup_mdel_none {α : Type} (m : List (String × α)) (k k2 : String)
    (h : m.lookup k2 = Option.none) : (mdel m k).lookup k2 = Option.none :=
  lookup_filter_none m k2 _ h

theorem mem_mdel {α : Type} (m : List (String × α)) (k : String) (p : String × α)
    (h : p ∈ mdel m k) : p ∈ m :=
  List.mem_of_mem_filter h

theorem lookup_mem {α : Type} (m : List (String × α)) (k : String) (v : α)
    (h : m.lookup k = some v) : (k, v) ∈ m := by
  induction m with
  | nil => simp [List.lookup] at h
  | cons a m ih =>
    obtain ⟨k2, v2⟩ := a
    by_cases hk : k = k2
    · subst hk
      simp only [List.lookup, beq_self_eq_true] at h
      injection h with h2
      subst h2
      exact List.mem_cons_self _ _
    · have hbeq : (k == k2) = false := beq_eq_false_iff_ne.mpr hk
      simp only [List.lookup, hbeq] at h
      exact List.mem_cons_of_mem _ (ih h)

/-- C1: for every incoming Call (any method name, argument list, state
and correlation ID), `JSBridge.call_python` emits exactly one Result
message tagged with the original correlation ID — whether the method
succeeds, is missing, or raises.  Failures never escape: every path of
the (total) function returns a Result rather than propagating an
exception. -/
theorem call_python_one_result_per_call
    (methods : List (String × PyMethod)) (st : DisplayLibState)
    (func_name : String) (args : List PyVal) (request_id : String) :
    ∃ msg : ResultMsg,
      (JSBridge.call_python methods st func_name args request_id).1 = [msg]
      ∧ msg.requestId = request_id := by
  unfold JSBridge.call_python
  cases hlf : methods.lookup func_name with
  | none => exact ⟨_, rfl, rfl⟩
  | some f =>
    dsimp only
    rcases hfr : f args st with ⟨er, st2⟩
    cases er with
    | ok r =>
      dsimp only
      cases hd : dumpsPy r with
      | ok payload => exact ⟨_, rfl, rfl⟩
      | error e => exact ⟨_, rfl, rfl⟩
    | error e => exact ⟨_, rfl, rfl⟩

/-- C2: a Call to a method name absent from the registry produces — for
every argument list — a Result whose payload is the null wire value and
whose error deserializes to `{"type": "NoSuchMethod", "message": ...}`;
never a payload. -/
theorem call_python_unknown_method
    (methods : List (String × PyMethod)) (st : DisplayLibState)
    (func_name : String) (args : List PyVal) (request_id : String)
    (hnone : methods.lookup func_name = Option.none) :
    ∃ msg : ResultMsg,
      (JSBridge.call_python methods st func_name args request_id).1 = [msg]
      ∧ msg.payload = dumps Json.null
      ∧ loads msg.error = some (Json.obj
          [("type", Json.str "NoSuchMethod"),
           ("message", Json.str (func_name ++ " not found"))]) := by
  refine ⟨⟨request_id, dumps Json.null,
      dumps (errJson ⟨"NoSuchMethod", func_name ++ " not found"⟩)⟩, ?_, rfl, ?_⟩
  · unfold JSBridge.call_python
    rw [hnone]
  · rw [loads_dumps]
    rfl

/-- Witness for C2 at a concrete unregistered name. -/
theorem call_python_unknown_method_witness :
    DisplayLibDemo.demoMethods.lookup "removeItem" = Option.none
    ∧ ∃ msg : ResultMsg,
      (JSBridge.call_python DisplayLibDemo.demoMethods DisplayLibDemo.demoState
        "removeItem" [] "req_0").1 = [msg]
      ∧ msg.payload = dumps Json.null
      ∧ loads msg.error = some (Json.obj
          [("type", Json.str "NoSuchMethod"),
           ("message", Json.str ("removeItem" ++ " not found"))]) :=
  ⟨rfl, call_python_unknown_method DisplayLibDemo.demoMethods DisplayLibDemo.demoState
    "removeItem" [] "req_0" rfl⟩

/-- C7: when a registered method raises, the single emitted Result
carries the null payload and an error whose `type` is the exception's
class name and whose `message` is its description. -/
theorem call_python_method_failure
    (methods : List (String × PyMethod)) (st st2 : DisplayLibState)
    (func_name : String) (args : List PyVal) (request_id : String)
    (f : PyMethod) (e : PyError)
    (hf : methods.lookup func_name = some f)
    (he : f args st = (Except.error e, st2)) :
    JSBridge.call_python methods st func_name args request_id
      = ([⟨request_id, dumps Json.null, dumps (errJson e)⟩], st2)
    ∧ loads (dumps (errJson e)) = some (Json.obj
        [("type", Json.str e.type), ("message", Json.str e.message)]) := by
  constructor
  · unfold JSBridge.call_python
    rw [hf]
    dsimp only
    rw [he]
  · rw [loads_dumps]
    rfl

/-- Witness for C7: `addItem` called with no argument raises a
`TypeError`. -/
theorem call_python_method_failure_witness :
    DisplayLibDemo.demoMethods.lookup "addItem" = some DisplayLibDemo.add_item
    ∧ DisplayLibDemo.add_item [] DisplayLibDemo.demoState
        = (Except.error ⟨"TypeError", "add_item() takes 1 argument"⟩,
           DisplayLibDemo.demoState)
    ∧ JSBridge.call_python DisplayLibDemo.demoMethods DisplayLibDemo.demoState
        "addItem" [] "req_3"
      = ([⟨"req_3", dumps Json.null,
           dumps (errJson ⟨"TypeError", "add_item() takes 1 argument"⟩)⟩],
         DisplayLibDemo.demoState)
    ∧ loads (dumps (errJson ⟨"TypeError", "add_item() takes 1 argument"⟩))
        = some (Json.obj [("type", Json.str "TypeError"),
            ("message", Json.str "add_item() takes 1 argument")]) := by
  refine ⟨rfl, rfl, ?_⟩
  have h := call_python_method_failure DisplayLibDemo.demoMethods DisplayLibDemo.demoState
    DisplayLibDemo.demoState "addItem" [] "req_3" DisplayLibDemo.add_item
    ⟨"TypeError", "add_item() takes 1 argument"⟩ rfl rfl
  exact h

/-- C10: when a registered method returns a value the JSON serializer
cannot encode, the guest still receives exactly one Result: null
payload and an error whose `type` is the serialization failure's class
name `TypeError` — no host-side crash. -/
theorem call_python_unserializable_result
    (methods : List (String × PyMethod)) (st st2 : DisplayLibState)
    (func_name : String) (args : List PyVal) (request_id : String)
    (f : PyMethod) (r : PyVal) (ty : String)
    (hf : methods.lookup func_name = some f)
    (hr : f args st = (Except.ok r, st2))
    (hj : PyVal.toJson r = Except.error ty) :
    JSBridge.call_python methods st func_name args request_id
      = ([⟨request_id, dumps Json.null,
           dumps (errJson ⟨"TypeError",
             "Object of type " ++ ty ++ " is not JSON serializable"⟩)⟩], st2)
    ∧ loads (dumps (errJson ⟨"TypeError",
          "Object of type " ++ ty ++ " is not JSON serializable"⟩))
        = some (Json.obj
            [("type", Json.str "TypeError"),
             ("message", Json.str ("Object of type " ++ ty
                ++ " is not JSON serializable"))]) := by
  constructor
  · unfold JSBridge.call_python
    rw [hf]
    dsimp only
    rw [hr]
    dsimp only
    unfold dumpsPy
    rw [hj]
  · rw [loads_dumps]
    rfl

/-- Witness for C10 via the fixture method returning a Python `set`. -/
theorem call_python_unserializable_result_witness :
    [("makeSet", fixtureSetMethod)].lookup "makeSet" = some fixtureSetMethod
    ∧ fixtureSetMethod [] DisplayLibDemo.demoState
        = (Except.ok (PyVal.pyobj "set"), DisplayLibDemo.demoState)
    ∧ PyVal.toJson (PyVal.pyobj "set") = Except.error "set"
    ∧ JSBridge.call_python [("makeSet", fixtureSetMethod)] DisplayLibDemo.demoState
        "makeSet" [] "req_7"
      = ([⟨"req_7", dumps Json.null,
           dumps (errJson ⟨"TypeError",
             "Object of type " ++ "set" ++ " is not JSON serializable"⟩)⟩],
         DisplayLibDemo.demoState) := by
  refine ⟨rfl, rfl, rfl, ?_⟩
  exact (call_python_unserializable_result [("makeSet", fixtureSetMethod)]
    DisplayLibDemo.demoState DisplayLibDemo.demoState "makeSet" [] "req_7"
    fixtureSetMethod (PyVal.pyobj "set") "set" rfl rfl rfl).1

/-- C4: the guest-visible `set_variable` never raises (it is total): a
wire string that deserializes as JSON stores the parsed value, a
deserialization failure stores the raw wire string unchanged; and in
particular `setVariable("counter", "not json")` followed by
`getVariable("counter")` yields the literal string `"not json"`. -/
theorem set_variable_lenient (st : DisplayLibState) (name value : String) :
    (∀ j, loads value = some j →
      DisplayLib.get_variable (JSBridge.set_variable st name value) name = Json.toPy j)
    ∧ (loads value = Option.none →
      DisplayLib.get_variable (JSBridge.set_variable st name value) name
        = PyVal.str value)
    ∧ DisplayLib.getVariable (JSBridge.set_variable st "counter" "not json") "counter"
        = Except.ok (Json.str "not json") := by
  refine ⟨?_, ?_, ?_⟩
  · intro j hj
    unfold JSBridge.set_variable
    rw [hj]
    unfold DisplayLib.get_variable dgetD
    dsimp only
    rw [lookup_mset_self]
  · intro hj
    unfold JSBridge.set_variable
    rw [hj]
    unfold DisplayLib.get_variable dgetD
    dsimp only
    rw [lookup_mset_self]
  · rfl

/-- Witness for C4 at a parsing wire string and a non-parsing one. -/
theorem set_variable_lenient_witness :
    loads "42" = some (Json.num 42)
    ∧ DisplayLib.get_variable
        (JSBridge.set_variable ⟨[], []⟩ "counter" "42") "counter" = Json.toPy (Json.num 42)
    ∧ loads "not json" = Option.none
    ∧ DisplayLib.get_variable
        (JSBridge.set_variable ⟨[], []⟩ "counter" "not json") "counter"
        = PyVal.str "not json" :=
  ⟨rfl,
   (set_variable_lenient ⟨[], []⟩ "counter" "42").1 (Json.num 42) rfl,
   rfl,
   (set_variable_lenient ⟨[], []⟩ "counter" "not json").2.1 rfl⟩

/-- C6: on the host-side store, `get_variable(name)` immediately after
`set_variable(name, v)` returns `v`, for `v` JSON-serializable as the
claim constrains (the code needs no such constraint). -/
theorem get_after_set_variable (st : DisplayLibState) (name : String) (v : PyVal)
    (h : ∃ j, PyVal.toJson v = Except.ok j) :
    DisplayLib.get_variable (DisplayLib.set_variable st name v) name = v := by
  unfold DisplayLib.set_variable DisplayLib.get_variable dgetD
  dsimp only
  rw [lookup_mset_self]

/-- Witness for C6 at a concrete serializable value. -/
theorem get_after_set_variable_witness :
    PyVal.toJson (PyVal.int 7) = Except.ok (Json.num 7)
    ∧ DisplayLib.get_variable
        (DisplayLib.set_variable DisplayLibDemo.demoState "counter" (PyVal.int 7))
        "counter" = PyVal.int 7 :=
  ⟨rfl, get_after_set_variable DisplayLibDemo.demoState "counter" (PyVal.int 7)
    ⟨Json.num 7, rfl⟩⟩

/-- C9: for a name absent from the respective store, the guest-visible
lookups return the null wire value `"null"` — parsed by the stub to the
JSON null — and never an error. -/
theorem unknown_lookup_returns_null (st : DisplayLibState) (name : String)
    (hc : st.constants.lookup name = Option.none)
    (hv : st.vars.lookup name = Option.none) :
    JSBridge.get_constant st name = Except.ok (dumps Json.null)
    ∧ JSBridge.get_variable st name = Except.ok (dumps Json.null)
    ∧ DisplayLib.getConstant st name = Except.ok Json.null
    ∧ DisplayLib.getVariable st name = Except.ok Json.null := by
  have hgc : JSBridge.get_constant st name = Except.ok (dumps Json.null) := by
    unfold JSBridge.get_constant dgetD
    rw [hc]
    rfl
  have hgv : JSBridge.get_variable st name = Except.ok (dumps Json.null) := by
    unfold JSBridge.get_variable dgetD
    rw [hv]
    rfl
  refine ⟨hgc, hgv, ?_, ?_⟩
  · unfold DisplayLib.getConstant
    rw [hgc]
    rfl
  · unfold DisplayLib.getVariable
    rw [hgv]
    rfl

/-- Witness for C9 at a name the demo never defines. -/
theorem unknown_lookup_returns_null_witness :
    DisplayLibDemo.demoState.constants.lookup "missing" = Option.none
    ∧ DisplayLibDemo.demoState.vars.lookup "missing" = Option.none
    ∧ JSBridge.get_constant DisplayLibDemo.demoState "missing"
        = Except.ok (dumps Json.null)
    ∧ DisplayLib.getVariable DisplayLibDemo.demoState "missing"
        = Except.ok Json.null :=
  ⟨rfl, rfl,
   (unknown_lookup_returns_null DisplayLibDemo.demoState "missing" rfl rfl).1,
   (unknown_lookup_returns_null DisplayLibDemo.demoState "missing" rfl rfl).2.2.2⟩

/-- C5: a registered method whose application yields a
JSON-serializable value gives the guest, through a full Call/Result
round trip (serialize on the host, deserialize on the guest), exactly
the wire image of the value that the spec's direct `invoke` returns:
the deferred is resolved with it. -/
theorem invoke_round_trip_agree
    (methods : List (String × PyMethod)) (st st2 : DisplayLibState) (stub : StubState)
    (name : String) (jargs : List Json) (f : PyMethod) (r : PyVal) (j : Json)
    (hf : methods.lookup name = some f)
    (hr : f (Json.toPyList jargs) st = (Except.ok r, st2))
    (hj : PyVal.toJson r = Except.ok j) :
    invoke methods name (Json.toPyList jargs) st = (Except.ok r, st2)
    ∧ (JSBridge.call_python methods st
         (DisplayLib.callPython stub name jargs).1.funcName
         (Json.toPyList (DisplayLib.callPython stub name jargs).1.args)
         (DisplayLib.callPython stub name jargs).1.requestId).1
       = [⟨reqIdOf stub.requestId, dumps j, dumps Json.null⟩]
    ∧ (pythonResultHandler (DisplayLib.callPython stub name jargs).2
         ⟨reqIdOf stub.requestId, dumps j, dumps Json.null⟩).settled
       = stub.settled ++ [(reqIdOf stub.requestId, GuestOutcome.resolveJ j)] := by
  refine ⟨?_, ?_, ?_⟩
  · unfold invoke
    rw [hf]
    dsimp only
    exact hr
  · show (JSBridge.call_python methods st name (Json.toPyList jargs)
        (reqIdOf stub.requestId)).1
      = [⟨reqIdOf stub.requestId, dumps j, dumps Json.null⟩]
    unfold JSBridge.call_python
    rw [hf]
    dsimp only
    rw [hr]
    dsimp only
    unfold dumpsPy
    rw [hj]
  · show (pythonResultHandler
        (StubState.mk (stub.requestId + 1)
          (mset stub.pendingCalls (reqIdOf stub.requestId) stub.requestId)
          stub.settled)
        ⟨reqIdOf stub.requestId, dumps j, dumps Json.null⟩).settled
      = stub.settled ++ [(reqIdOf stub.requestId, GuestOutcome.resolveJ j)]
    unfold pythonResultHandler
    dsimp only
    rw [lookup_mset_self]
    dsimp only
    rw [loads_dumps, loads_dumps]
    dsimp only [jsTruthy]
    rfl

/-- Witness for C5: `getItems` round trip from a fresh session. -/
theorem invoke_round_trip_agree_witness :
    DisplayLibDemo.demoMethods.lookup "getItems" = some DisplayLibDemo.get_items
    ∧ DisplayLibDemo.get_items (Json.toPyList []) DisplayLibDemo.demoState
        = (Except.ok (PyVal.list [PyVal.str "Item 1", PyVal.str "Item 2"]),
           DisplayLibDemo.demoState)
    ∧ PyVal.toJson (PyVal.list [PyVal.str "Item 1", PyVal.str "Item 2"])
        = Except.ok (Json.arr [Json.str "Item 1", Json.str "Item 2"])
    ∧ invoke DisplayLibDemo.demoMethods "getItems" (Json.toPyList [])
        DisplayLibDemo.demoState
        = (Except.ok (PyVal.list [PyVal.str "Item 1", PyVal.str "Item 2"]),
           DisplayLibDemo.demoState)
    ∧ (pythonResultHandler (DisplayLib.callPython initialStub "getItems" []).2
        ⟨reqIdOf 0, dumps (Json.arr [Json.str "Item 1", Json.str "Item 2"]),
         dumps Json.null⟩).settled
      = [(reqIdOf 0,
          GuestOutcome.resolveJ (Json.arr [Json.str "Item 1", Json.str "Item 2"]))] := by
  have h := invoke_round_trip_agree DisplayLibDemo.demoMethods DisplayLibDemo.demoState
    DisplayLibDemo.demoState initialStub "getItems" [] DisplayLibDemo.get_items
    (PyVal.list [PyVal.str "Item 1", PyVal.str "Item 2"])
    (Json.arr [Json.str "Item 1", Json.str "Item 2"]) rfl rfl rfl
  exact ⟨rfl, rfl, rfl, h.1, by simpa using h.2.2⟩

theorem reqIdOf_injective (n m : Nat) (h : reqIdOf n = reqIdOf m) : n = m := by
  have h2 : ("req_".data ++ natChars n) = ("req_".data ++ natChars m) :=
    congrArg String.data h
  have h3 : natChars n = natChars m := List.append_cancel_left h2
  have h4 := congrArg digitsVal h3
  simpa [digitsVal_natChars] using h4

theorem callPython_state (st : StubState) (funcName : String) (args : List Json) :
    (DisplayLib.callPython st funcName args).2 =
      StubState.mk (st.requestId + 1)
        (mset st.pendingCalls (reqIdOf st.requestId) st.requestId)
        st.settled := rfl

theorem pythonResultHandler_no_pending (st : StubState) (msg : ResultMsg)
    (h : st.pendingCalls.lookup msg.requestId = Option.none) :
    pythonResultHandler st msg = st := by
  unfold pythonResultHandler
  rw [h]

theorem stubInv_drop (st : StubState) (id : String) (h : StubInv st) :
    StubInv (StubState.mk st.requestId (mdel st.pendingCalls id) st.settled) := by
  obtain ⟨h1, h2, h3, h4⟩ := h
  exact ⟨h1,
    fun k hk => lookup_mdel_none _ _ _ (h2 k hk),
    h3,
    fun p hp => h4 p (mem_mdel _ _ _ hp)⟩

theorem stubInv_settle (st : StubState) (id : String) (tok : Nat) (o : GuestOutcome)
    (h : StubInv st) (hl : st.pendingCalls.lookup id = some tok) :
    StubInv (StubState.mk st.requestId (mdel st.pendingCalls id)
      (st.settled ++ [(id, o)])) := by
  obtain ⟨h1, h2, h3, h4⟩ := h
  have hnotin : id ∉ st.settled.map Prod.fst := by
    intro hin
    rw [h2 id hin] at hl
    exact Option.noConfusion hl
  refine ⟨?_, ?_, ?_, ?_⟩
  · rw [List.map_append, List.nodup_append]
    refine ⟨h1, List.nodup_singleton _, ?_⟩
    intro a ha hb
    simp only [List.map_cons, List.map_nil, List.mem_singleton] at hb
    subst hb
    exact hnotin ha
  · intro k hk
    rw [List.map_append, List.mem_append] at hk
    cases hk with
    | inl hk => exact lookup_mdel_none _ _ _ (h2 k hk)
    | inr hk =>
      simp only [List.map_cons, List.map_nil, List.mem_singleton] at hk
      subst hk
      exact lookup_mdel_self _ _
  · intro k hk
    rw [List.map_append, List.mem_append] at hk
    cases hk with
    | inl hk => exact h3 k hk
    | inr hk =>
      simp only [List.map_cons, List.map_nil, List.mem_singleton] at hk
      subst hk
      exact h4 (k, tok) (lookup_mem _ _ _ hl)
  · intro p hp
    exact h4 p (mem_mdel _ _ _ hp)

theorem stubInv_step (st : StubState) (a : StubAction) (h : StubInv st) :
    StubInv (stubStep st a) := by
  cases a with
  | call funcName args =>
    obtain ⟨h1, h2, h3, h4⟩ := h
    show StubInv (DisplayLib.callPython st funcName args).2
    rw [callPython_state]
    unfold StubInv
    dsimp only
    refine ⟨h1, ?_, ?_, ?_⟩
    · intro id hid
      by_cases hk : id = reqIdOf st.requestId
      · exfalso
        obtain ⟨j, hj, hje⟩ := h3 id hid
        have := reqIdOf_injective j st.requestId (hje ▸ hk)
        omega
      · rw [lookup_mset_ne _ _ _ _ hk]
        exact h2 id hid
    · intro id hid
      obtain ⟨j, hj, hje⟩ := h3 id hid
      exact ⟨j, by omega, hje⟩
    · intro p hp
      rcases List.mem_cons.mp hp with hp1 | hp2
      · subst hp1
        exact ⟨st.requestId, by omega, rfl⟩
      · obtain ⟨j, hj, hje⟩ := h4 p (List.mem_of_mem_filter hp2)
        exact ⟨j, by omega, hje⟩
  | result msg =>
    show StubInv (pythonResultHandler st msg)
    unfold pythonResultHandler
    cases hl : st.pendingCalls.lookup msg.requestId with
    | none => exact h
    | some tok =>
      dsimp only
      cases hle : loads msg.error with
      | none => exact stubInv_drop st msg.requestId h
      | some errorObj =>
        dsimp only
        by_cases ht : jsTruthy errorObj
        · rw [if_pos ht]
          exact stubInv_settle st msg.requestId tok _ h hl
        · rw [if_neg ht]
          cases hlp : loads msg.payload with
          | none => exact stubInv_drop st msg.requestId h
          | some p => exact stubInv_settle st msg.requestId tok _ h hl

theorem stubInv_initial : StubInv initialStub := by
  refine ⟨List.nodup_nil, ?_, ?_, ?_⟩ <;> intro x hx <;> simp [initialStub] at hx

theorem stubInv_run (st : StubState) (acts : List StubAction) (h : StubInv st) :
    StubInv (runStub st acts) := by
  induction acts generalizing st with
  | nil => exact h
  | cons a acts ih => exact ih _ (stubInv_step st a h)

/-- C3: correlation IDs `'req_' + counter` are pairwise distinct within
a session; a Result whose ID has no pending entry is a silent no-op
(state unchanged, not an error); and along any session — any
interleaving of issued calls and received Results from a fresh stub —
each deferred settles at most once: settled IDs are pairwise distinct
and the pending entry is removed on settlement. -/
theorem stub_ids_unique_settle_once :
    (∀ n m : Nat, reqIdOf n = reqIdOf m → n = m)
    ∧ (∀ (st : StubState) (msg : ResultMsg),
        st.pendingCalls.lookup msg.requestId = Option.none →
        pythonResultHandler st msg = st)
    ∧ (∀ acts : List StubAction,
        ((runStub initialStub acts).settled.map Prod.fst).Nodup
        ∧ ∀ id ∈ (runStub initialStub acts).settled.map Prod.fst,
            (runStub initialStub acts).pendingCalls.lookup id = Option.none) := by
  refine ⟨reqIdOf_injective, pythonResultHandler_no_pending, ?_⟩
  intro acts
  have h := stubInv_run initialStub acts stubInv_initial
  exact ⟨h.1, h.2.1⟩

/-- Witness for C3: a concrete session with a duplicate and an unknown
Result. -/
theorem stub_ids_unique_settle_once_witness :
    (4 : Nat) = 4
    ∧ pythonResultHandler initialStub ⟨"req_9", "null", "null"⟩ = initialStub
    ∧ ((runStub initialStub
        [StubAction.call "incrementCounter" [Json.num 1],
         StubAction.call "addItem" [Json.str "c"],
         StubAction.result ⟨"req_1", "true", "null"⟩,
         StubAction.result ⟨"req_1", "true", "null"⟩,
         StubAction.result ⟨"req_0", "2", "null"⟩]).settled.map Prod.fst).Nodup :=
  ⟨stub_ids_unique_settle_once.1 4 4 rfl,
   stub_ids_unique_settle_once.2.1 initialStub ⟨"req_9", "null", "null"⟩ rfl,
   (stub_ids_unique_settle_once.2.2
     [StubAction.call "incrementCounter" [Json.num 1],
      StubAction.call "addItem" [Json.str "c"],
      StubAction.result ⟨"req_1", "true", "null"⟩,
      StubAction.result ⟨"req_1", "true", "null"⟩,
      StubAction.result ⟨"req_0", "2", "null"⟩]).1⟩

/-- C8: with the demo's `MAX_ITEMS = 10` constant and `items` starting
at two entries, ten successive `addItem("c")` calls through the bridge
return `true` exactly eight times and `false` exactly twice, and the
final `items` list has exactly 10 entries. -/
theorem demo_add_item_ten_calls :
    ((addItemCalls 10 DisplayLibDemo.demoState).1.map ResultMsg.payload).count
        (dumps (Json.bool true)) = 8
    ∧ ((addItemCalls 10 DisplayLibDemo.demoState).1.map ResultMsg.payload).count
        (dumps (Json.bool false)) = 2
    ∧ (addItemCalls 10 DisplayLibDemo.demoState).1.length = 10
    ∧ pyListLen (DisplayLib.get_variable
        (addItemCalls 10 DisplayLibDemo.demoState).2 "items") = some 10 := by
  refine ⟨?_, ?_, ?_, ?_⟩ <;> rfl
